import Mathlib

/-!
Verification of `cm/losses.py` (statistical loss library: Gaussian KL,
discretized Gaussian log-likelihood, ECFD estimators).

Tensors are modelled over exact real arithmetic; elementwise torch
operations become functions on `ℝ`, tensor-level operations act on explicit
shape/data representations, and the random frequency draws of the ECFD
estimators are passed in as explicit parameters (the standard-normal or
uniform raw draws), so every statement is "for any realization of the
random draws".
-/

namespace CmLosses

/-! ## GaussianKL (`normal_kl`, losses.py lines 11-38) -/

/-- Elementwise value of `normal_kl` (losses.py lines 32-38):
`0.5 * (-1 + logvar2 - logvar1 + exp(logvar1 - logvar2)
       + (mean1 - mean2)^2 * exp(-logvar2))`. -/
noncomputable def normal_kl (mean1 logvar1 mean2 logvar2 : ℝ) : ℝ :=
  0.5 * (-1.0 + logvar2 - logvar1 + Real.exp (logvar1 - logvar2)
    + (mean1 - mean2) ^ 2 * Real.exp (-logvar2))

/-- Error taxonomy of the library (spec section 7): `preconditionViolation`
is the failed `assert tensor is not None` of `normal_kl` (line 23),
`shapeMismatch` the failed shape assert of
`discretized_gaussian_log_likelihood` (line 60). -/
inductive LossError where
  | preconditionViolation
  | shapeMismatch
deriving DecidableEq

/-- A tensor over an abstract index type `ι`, carrying an abstract
dtype/device context tag `ctx` (all torch elementwise ops preserve it). -/
structure TTensor (ι : Type) where
  ctx : ℕ
  data : ι → ℝ

/-- The Scalar-or-Tensor union accepted by `normal_kl`'s four arguments. -/
inductive SoT (ι : Type) where
  | scalar (v : ℝ)
  | tensor (t : TTensor ι)

/-- Whether a Scalar-or-Tensor argument is a Tensor
(`isinstance(obj, th.Tensor)`). -/
def SoT.isTensor {ι : Type} : SoT ι → Bool
  | .scalar _ => false
  | .tensor _ => true

/-- The loop of losses.py lines 18-22: scan the arguments in order and
keep the first Tensor found. -/
def firstTensor {ι : Type} : List (SoT ι) → Option (TTensor ι)
  | [] => none
  | .scalar _ :: rest => firstTensor rest
  | .tensor t :: _ => some t

/-- The promotion of losses.py lines 27-30:
`x if isinstance(x, th.Tensor) else th.tensor(x).to(tensor)` — a scalar
becomes a constant tensor carrying the context (dtype/device) of the first
Tensor `t0`; a Tensor is left unchanged. -/
def SoT.promote {ι : Type} (t0 : TTensor ι) : SoT ι → TTensor ι
  | .scalar v => ⟨t0.ctx, fun _ => v⟩
  | .tensor t => t

/-- Broadcast value of a Scalar-or-Tensor operand: a scalar contributes the
same value at every index (torch broadcasting), a tensor its own entries. -/
def SoT.val {ι : Type} : SoT ι → ι → ℝ
  | .scalar v => fun _ => v
  | .tensor t => t.data

/-- Full `normal_kl` (losses.py lines 11-38): assert that some argument is
a Tensor (lines 18-23), promote the two logvars to tensors matching the
first Tensor found (lines 27-30), then return the broadcast elementwise
result (lines 32-38). -/
noncomputable def normal_kl_t {ι : Type} (mean1 logvar1 mean2 logvar2 : SoT ι) :
    Except LossError (TTensor ι) :=
  match firstTensor [mean1, logvar1, mean2, logvar2] with
  | none => .error .preconditionViolation
  | some t0 =>
    let lv1 := logvar1.promote t0
    let lv2 := logvar2.promote t0
    .ok ⟨t0.ctx, fun i =>
      0.5 * (-1.0 + lv2.data i - lv1.data i
        + Real.exp (lv1.data i - lv2.data i)
        + (mean1.val i - mean2.val i) ^ 2 * Real.exp (-(lv2.data i)))⟩

/-- Data of a fallible tensor result (zero function on error), used to
state elementwise facts about `normal_kl_t` without naming the result. -/
noncomputable def exceptData {ι : Type} : Except LossError (TTensor ι) → ι → ℝ
  | .ok r => r.data
  | .error _ => fun _ => 0

/-! ## ApproxStandardNormalCDF (losses.py lines 41-46) -/

/-- Elementwise `approx_standard_normal_cdf` (losses.py line 46):
`0.5 * (1 + tanh(sqrt(2/pi) * (x + 0.044715 * x^3)))`. -/
noncomputable def approx_standard_normal_cdf (x : ℝ) : ℝ :=
  0.5 * (1.0 + Real.tanh (Real.sqrt (2.0 / Real.pi) * (x + 0.044715 * x ^ 3)))

/-! ## DiscretizedGaussianLogLikelihood (losses.py lines 49-76) -/

/-- The `cdf_plus` intermediate of losses.py lines 61-64:
`approx_standard_normal_cdf(exp(-log_scales) * ((x - means) + 1/255))`. -/
noncomputable def dgll_cdf_plus (x means log_scales : ℝ) : ℝ :=
  approx_standard_normal_cdf (Real.exp (-log_scales) * ((x - means) + 1.0 / 255.0))

/-- The `cdf_min` intermediate of losses.py lines 65-66:
`approx_standard_normal_cdf(exp(-log_scales) * ((x - means) - 1/255))`. -/
noncomputable def dgll_cdf_min (x means log_scales : ℝ) : ℝ :=
  approx_standard_normal_cdf (Real.exp (-log_scales) * ((x - means) - 1.0 / 255.0))

/-- Elementwise `discretized_gaussian_log_likelihood` (losses.py
lines 61-74).  `clamp(min=1e-12)` is `max · 1e-12`; the nested `th.where`
on `x < -0.999` / `x > 0.999` becomes a nested if-then-else (torch computes
all three branch tensors and selects per element; values agree). -/
noncomputable def dgll_elem (x means log_scales : ℝ) : ℝ :=
  if x < -0.999 then
    Real.log (max (dgll_cdf_plus x means log_scales) 1e-12)
  else if 0.999 < x then
    Real.log (max (1.0 - dgll_cdf_min x means log_scales) 1e-12)
  else
    Real.log (max (dgll_cdf_plus x means log_scales - dgll_cdf_min x means log_scales) 1e-12)

/-- A shaped tensor: a shape vector and flat row-major data. -/
structure TensorR where
  shape : List ℕ
  data : List ℝ
deriving Inhabited

/-- Tensor-level `discretized_gaussian_log_likelihood` (losses.py
lines 49-76): the entry assert `x.shape == means.shape == log_scales.shape`
(line 60, Python chained comparison) aborts with `shapeMismatch` before any
computation; otherwise the elementwise pipeline of lines 61-74 is applied
pointwise and the output keeps `x`'s shape. -/
noncomputable def discretized_gaussian_log_likelihood (x means log_scales : TensorR) :
    Except LossError TensorR :=
  if x.shape = means.shape ∧ means.shape = log_scales.shape then
    .ok ⟨x.shape, List.zipWith3 dgll_elem x.data means.data log_scales.data⟩
  else
    .error .shapeMismatch

/-! ## Helper bounds for `tanh` and the CDF approximation -/

/-- Strict bounds `-1 < tanh y < 1`, from
`tanh = (exp y - exp (-y)) / (exp y + exp (-y))`. -/
lemma tanh_mem_Ioo (y : ℝ) : -1 < Real.tanh y ∧ Real.tanh y < 1 := by
  have hc : 0 < Real.cosh y := Real.cosh_pos y
  have hs : Real.sinh y = (Real.exp y - Real.exp (-y)) / 2 := Real.sinh_eq y
  have hco : Real.cosh y = (Real.exp y + Real.exp (-y)) / 2 := Real.cosh_eq y
  have he1 : 0 < Real.exp y := Real.exp_pos y
  have he2 : 0 < Real.exp (-y) := Real.exp_pos (-y)
  rw [Real.tanh_eq_sinh_div_cosh]
  constructor
  · rw [lt_div_iff₀ hc, hs, hco]; nlinarith
  · rw [div_lt_iff₀ hc, hs, hco]; nlinarith

/-- The CDF approximation always lies in `[0, 1]`. -/
lemma approx_cdf_mem_Icc (x : ℝ) :
    0 ≤ approx_standard_normal_cdf x ∧ approx_standard_normal_cdf x ≤ 1 := by
  have h := tanh_mem_Ioo (Real.sqrt (2.0 / Real.pi) * (x + 0.044715 * x ^ 3))
  unfold approx_standard_normal_cdf
  constructor <;> nlinarith [h.1, h.2]

/-- Each branch of `dgll_elem` is `log (max arg 1e-12)` with `arg ≤ 1`,
so the output lies in `[log 1e-12, 0]`. -/
lemma dgll_elem_mem (x means log_scales : ℝ) :
    Real.log 1e-12 ≤ dgll_elem x means log_scales ∧ dgll_elem x means log_scales ≤ 0 := by
  have hp := approx_cdf_mem_Icc (Real.exp (-log_scales) * ((x - means) + 1.0 / 255.0))
  have hm := approx_cdf_mem_Icc (Real.exp (-log_scales) * ((x - means) - 1.0 / 255.0))
  have hplus : 0 ≤ dgll_cdf_plus x means log_scales ∧ dgll_cdf_plus x means log_scales ≤ 1 := hp
  have hmin : 0 ≤ dgll_cdf_min x means log_scales ∧ dgll_cdf_min x means log_scales ≤ 1 := hm
  have key : ∀ a : ℝ, a ≤ 1 →
      Real.log 1e-12 ≤ Real.log (max a 1e-12) ∧ Real.log (max a 1e-12) ≤ 0 := by
    intro a ha
    have h1 : (1e-12 : ℝ) ≤ max a 1e-12 := le_max_right a 1e-12
    have h2 : max a 1e-12 ≤ 1 := max_le ha (by norm_num)
    have hpos : (0 : ℝ) < 1e-12 := by norm_num
    constructor
    · exact (Real.log_le_log_iff hpos (lt_of_lt_of_le hpos h1)).2 h1
    · exact Real.log_nonpos (le_of_lt (lt_of_lt_of_le hpos h1)) h2
  unfold dgll_elem
  split
  · exact key _ hplus.2
  · split
    · exact key _ (by linarith [hmin.1])
    · exact key _ (by linarith [hplus.2, hmin.1])

/-! ## Theorems for the claims on `normal_kl` -/

/-- C3: `normal_kl` computes, elementwise after broadcasting the four
operands, exactly
`0.5 * (-1 + logvar2 - logvar1 + exp(logvar1 - logvar2)
       + (mean1 - mean2)^2 * exp(-logvar2))`;
in particular `normal_kl 0 0 1 0 = 0.5` and `normal_kl m v m v = 0`. -/
theorem c3_gaussian_kl_formula :
    (∀ (ι : Type) (mean1 logvar1 mean2 logvar2 : SoT ι) (t0 : TTensor ι),
      firstTensor [mean1, logvar1, mean2, logvar2] = some t0 →
      ∀ i : ι, exceptData (normal_kl_t mean1 logvar1 mean2 logvar2) i =
        normal_kl (mean1.val i) (logvar1.val i) (mean2.val i) (logvar2.val i))
    ∧ normal_kl 0 0 1 0 = 0.5
    ∧ (∀ m v : ℝ, normal_kl m v m v = 0) := by
  refine ⟨?_, ?_, ?_⟩
  · intro ι m1 l1 m2 l2 t0 h i
    have hval : ∀ s : SoT ι, (s.promote t0).data = s.val := by
      intro s; cases s <;> rfl
    simp only [normal_kl_t, h, exceptData, normal_kl, hval]
  · simp [normal_kl, Real.exp_zero]; norm_num
  · intro m v
    simp [normal_kl, Real.exp_zero]
    norm_num

/-- C3 witness: the spec's literal scenario
`GaussianKL(mean1 = 0, logvar1 = 0, mean2 = 1, logvar2 = 0) = 0.5`,
obtained through the tensor-level function with `mean2` the only Tensor. -/
theorem c3_gaussian_kl_formula_witness :
    exceptData (normal_kl_t (ι := Unit) (.scalar 0) (.scalar 0)
      (.tensor ⟨0, fun _ => 1⟩) (.scalar 0)) () = 0.5 := by
  have h := c3_gaussian_kl_formula.1 Unit (.scalar 0) (.scalar 0)
    (.tensor ⟨0, fun _ => 1⟩) (.scalar 0) ⟨0, fun _ => 1⟩ rfl ()
  rw [h]
  exact c3_gaussian_kl_formula.2.1

/-- Upper bound `0.5 * (1 + tanh y) ≤ exp (2 y)`, used to show the
approximate CDF vanishes (below the clamp floor) far in the left tail. -/
lemma half_one_add_tanh_le (y : ℝ) : 0.5 * (1 + Real.tanh y) ≤ Real.exp (2 * y) := by
  have hc : 0 < Real.cosh y := Real.cosh_pos y
  have h1 : 1 + Real.tanh y = Real.exp y / Real.cosh y := by
    rw [Real.tanh_eq_sinh_div_cosh, ← Real.cosh_add_sinh y]
    field_simp
  have h3 : Real.exp (2 * y) * Real.exp (-y) = Real.exp y := by
    rw [← Real.exp_add]; ring_nf
  have h4 : 0.5 * (Real.exp y / Real.cosh y) = 0.5 * Real.exp y / Real.cosh y := by ring
  rw [h1, h4, div_le_iff₀ hc, Real.cosh_eq]
  nlinarith [Real.exp_pos y, Real.exp_pos (-y), Real.exp_pos (2 * y)]

/-- Lower bound on the constant `sqrt(2/pi)` of the CDF approximation. -/
lemma sqrt_two_div_pi_ge : (1 / 2 : ℝ) ≤ Real.sqrt (2.0 / Real.pi) := by
  have hpi : (0 : ℝ) < Real.pi := Real.pi_pos
  have h : (1 / 2 : ℝ) ^ 2 ≤ 2.0 / Real.pi := by
    rw [le_div_iff₀ hpi]
    nlinarith [Real.pi_le_four]
  exact (Real.le_sqrt (by norm_num) (by positivity)).2 h

/-- Numeric bound `exp (-60) < 1e-12`, via `exp 1 > 2`. -/
lemma exp_neg_sixty_lt : Real.exp (-60) < 1e-12 := by
  have h2 : (2 : ℝ) ≤ Real.exp 1 := by
    have := Real.exp_one_gt_d9
    linarith
  have hpow : (2 : ℝ) ^ (60 : ℕ) ≤ Real.exp 1 ^ (60 : ℕ) :=
    pow_le_pow_left₀ (by norm_num) h2 60
  have h60 : (1e12 : ℝ) < Real.exp 60 := by
    have he : Real.exp ((60 : ℕ) * (1 : ℝ)) = Real.exp 1 ^ (60 : ℕ) := Real.exp_nat_mul 1 60
    have he' : Real.exp 60 = Real.exp 1 ^ (60 : ℕ) := by
      rw [← he]; norm_num
    rw [he']
    calc (1e12 : ℝ) < 2 ^ (60 : ℕ) := by norm_num
    _ ≤ Real.exp 1 ^ (60 : ℕ) := hpow
  rw [Real.exp_neg]
  have h0 : (0 : ℝ) < 1e12 := by norm_num
  have : (Real.exp 60)⁻¹ < (1e12 : ℝ)⁻¹ := inv_strictAnti₀ h0 h60
  calc (Real.exp 60)⁻¹ < (1e12 : ℝ)⁻¹ := this
  _ = 1e-12 := by norm_num

/-- At `x = 0`, `means = 61`, `log_scales = 0` the upper bin edge is about
`-61` standard deviations, and the approximate CDF there is below the
`1e-12` clamp floor. -/
lemma dgll_cdf_plus_witness_small : dgll_cdf_plus 0 61 0 ≤ 1e-12 := by
  have hp : Real.exp (-(0 : ℝ)) * (((0 : ℝ) - 61) + 1.0 / 255.0) = -61 + 1 / 255 := by
    simp [Real.exp_zero]
    norm_num
  have hc1 := sqrt_two_div_pi_ge
  set p : ℝ := -61 + 1 / 255 with hpdef
  have hple : p ≤ -60 := by rw [hpdef]; norm_num
  have hq : p + 0.044715 * p ^ 3 ≤ -60 := by nlinarith
  have hcnn : (0 : ℝ) ≤ Real.sqrt (2.0 / Real.pi) := Real.sqrt_nonneg _
  have hy : Real.sqrt (2.0 / Real.pi) * (p + 0.044715 * p ^ 3) ≤ -30 := by
    nlinarith
  have hbound := half_one_add_tanh_le (Real.sqrt (2.0 / Real.pi) * (p + 0.044715 * p ^ 3))
  have hexp : Real.exp (2 * (Real.sqrt (2.0 / Real.pi) * (p + 0.044715 * p ^ 3))) ≤
      Real.exp (-60) := Real.exp_le_exp.2 (by linarith)
  have : approx_standard_normal_cdf p ≤ 1e-12 := by
    unfold approx_standard_normal_cdf
    have := exp_neg_sixty_lt
    linarith
  unfold dgll_cdf_plus
  rw [hp]
  exact this

/-- Membership in `List.zipWith3` comes from applying the function to some
triple of entries. -/
lemma mem_zipWith3 {α β γ δ : Type} {f : α → β → γ → δ} :
    ∀ (as : List α) (bs : List β) (cs : List γ) (v : δ),
      v ∈ List.zipWith3 f as bs cs → ∃ a b c, v = f a b c := by
  intro as
  induction as with
  | nil => intro bs cs v hv; simp [List.zipWith3] at hv
  | cons a as ih =>
    intro bs cs v hv
    cases bs with
    | nil => simp [List.zipWith3] at hv
    | cons b bs =>
      cases cs with
      | nil => simp [List.zipWith3] at hv
      | cons c cs =>
        simp only [List.zipWith3, List.mem_cons] at hv
        rcases hv with h | h
        · exact ⟨a, b, c, h⟩
        · exact ih bs cs v h

/-! ## Theorems for the claims on GaussianKL preconditions and
DiscretizedGaussianLogLikelihood -/

/-- C8: `normal_kl` fails with `preconditionViolation` exactly when none of
its four arguments is a Tensor; otherwise it returns a tensor in the
context of the first Tensor found in argument order, and a scalar logvar is
promoted to that same context. -/
theorem c8_gaussian_kl_precondition :
    ∀ (ι : Type) (mean1 logvar1 mean2 logvar2 : SoT ι),
      (normal_kl_t mean1 logvar1 mean2 logvar2 = .error .preconditionViolation ↔
        (mean1.isTensor = false ∧ logvar1.isTensor = false ∧
         mean2.isTensor = false ∧ logvar2.isTensor = false))
      ∧ (∀ t0 : TTensor ι, firstTensor [mean1, logvar1, mean2, logvar2] = some t0 →
          (∃ r : TTensor ι, normal_kl_t mean1 logvar1 mean2 logvar2 = .ok r ∧ r.ctx = t0.ctx)
          ∧ (logvar1.isTensor = false → (logvar1.promote t0).ctx = t0.ctx)
          ∧ (logvar2.isTensor = false → (logvar2.promote t0).ctx = t0.ctx)) := by
  intro ι m1 l1 m2 l2
  constructor
  · cases m1 <;> cases l1 <;> cases m2 <;> cases l2 <;>
      simp [normal_kl_t, firstTensor, SoT.isTensor]
  · intro t0 h
    refine ⟨?_, ?_, ?_⟩
    · simp only [normal_kl_t, h]
      exact ⟨_, rfl, rfl⟩
    · intro hs
      cases l1 with
      | scalar v => rfl
      | tensor t => simp [SoT.isTensor] at hs
    · intro hs
      cases l2 with
      | scalar v => rfl
      | tensor t => simp [SoT.isTensor] at hs

/-- C8 witness: with `mean2` the only Tensor (context tag `7`) the call
succeeds and the result carries context `7`; with four scalars it fails
with `preconditionViolation`. -/
theorem c8_gaussian_kl_precondition_witness :
    (∃ r : TTensor Unit,
        normal_kl_t (ι := Unit) (.scalar 0) (.scalar 0) (.tensor ⟨7, fun _ => 1⟩) (.scalar 0)
          = .ok r ∧ r.ctx = 7)
    ∧ normal_kl_t (ι := Unit) (.scalar 0) (.scalar 0) (.scalar 1) (.scalar 0)
        = .error .preconditionViolation := by
  constructor
  · exact ((c8_gaussian_kl_precondition Unit (.scalar 0) (.scalar 0)
      (.tensor ⟨7, fun _ => 1⟩) (.scalar 0)).2 ⟨7, fun _ => 1⟩ rfl).1
  · exact (c8_gaussian_kl_precondition Unit (.scalar 0) (.scalar 0)
      (.scalar 1) (.scalar 0)).1.2 ⟨rfl, rfl, rfl, rfl⟩

/-- C9: `discretized_gaussian_log_likelihood` fails with `shapeMismatch`
exactly when the three input shapes are not all equal, and otherwise
returns a tensor of the shared shape. -/
theorem c9_dgll_shape_check :
    ∀ x means log_scales : TensorR,
      (¬ (x.shape = means.shape ∧ means.shape = log_scales.shape) →
        discretized_gaussian_log_likelihood x means log_scales = .error .shapeMismatch)
      ∧ ((x.shape = means.shape ∧ means.shape = log_scales.shape) →
          ∃ t : TensorR, discretized_gaussian_log_likelihood x means log_scales = .ok t
            ∧ t.shape = x.shape) := by
  intro x means log_scales
  constructor
  · intro h
    unfold discretized_gaussian_log_likelihood
    rw [if_neg h]
  · intro h
    refine ⟨⟨x.shape, List.zipWith3 dgll_elem x.data means.data log_scales.data⟩, ?_, rfl⟩
    unfold discretized_gaussian_log_likelihood
    rw [if_pos h]

/-- C9 witness: shapes `[2]` vs `[1]` vs `[1]` abort with `shapeMismatch`;
three `[1]`-shaped inputs produce a `[1]`-shaped output. -/
theorem c9_dgll_shape_check_witness :
    discretized_gaussian_log_likelihood ⟨[2], [0, 0]⟩ ⟨[1], [0]⟩ ⟨[1], [0]⟩
      = .error .shapeMismatch
    ∧ ∃ t : TensorR, discretized_gaussian_log_likelihood ⟨[1], [0]⟩ ⟨[1], [0]⟩ ⟨[1], [0]⟩
        = .ok t ∧ t.shape = [1] := by
  constructor
  · exact (c9_dgll_shape_check ⟨[2], [0, 0]⟩ ⟨[1], [0]⟩ ⟨[1], [0]⟩).1 (by simp)
  · exact (c9_dgll_shape_check ⟨[1], [0]⟩ ⟨[1], [0]⟩ ⟨[1], [0]⟩).2 ⟨rfl, rfl⟩

/-- C4: per element, `x < -0.999` selects the left-tail value
`log(clamp(cdf_plus, 1e-12))`, `x > 0.999` the right-tail value
`log(clamp(1 - cdf_min, 1e-12))`, and otherwise the interior value
`log(clamp(cdf_plus - cdf_min, 1e-12))`, which is finite
(at least `log 1e-12`). -/
theorem c4_dgll_branch_selection :
    ∀ x means log_scales : ℝ,
      (x < -0.999 → dgll_elem x means log_scales =
        Real.log (max (dgll_cdf_plus x means log_scales) 1e-12))
      ∧ (0.999 < x → dgll_elem x means log_scales =
        Real.log (max (1.0 - dgll_cdf_min x means log_scales) 1e-12))
      ∧ (-0.999 ≤ x → x ≤ 0.999 →
          dgll_elem x means log_scales =
            Real.log (max (dgll_cdf_plus x means log_scales
              - dgll_cdf_min x means log_scales) 1e-12)
          ∧ Real.log 1e-12 ≤ dgll_elem x means log_scales) := by
  intro x means log_scales
  refine ⟨?_, ?_, ?_⟩
  · intro h
    unfold dgll_elem
    rw [if_pos h]
  · intro h
    unfold dgll_elem
    rw [if_neg (by linarith), if_pos h]
  · intro h1 h2
    constructor
    · unfold dgll_elem
      rw [if_neg (by linarith), if_neg (by linarith)]
    · exact (dgll_elem_mem x means log_scales).1

/-- C4 witness: at `means = 0`, `log_scales = 0`, the input `x = -1` takes
the left-tail branch, `x = 1` the right-tail branch, and `x = 0` the
interior branch with a finite (≥ `log 1e-12`) value. -/
theorem c4_dgll_branch_selection_witness :
    dgll_elem (-1) 0 0 = Real.log (max (dgll_cdf_plus (-1) 0 0) 1e-12)
    ∧ dgll_elem 1 0 0 = Real.log (max (1.0 - dgll_cdf_min 1 0 0) 1e-12)
    ∧ dgll_elem 0 0 0 = Real.log (max (dgll_cdf_plus 0 0 0 - dgll_cdf_min 0 0 0) 1e-12)
    ∧ Real.log 1e-12 ≤ dgll_elem 0 0 0 := by
  refine ⟨?_, ?_, ?_, ?_⟩
  · exact (c4_dgll_branch_selection (-1) 0 0).1 (by norm_num)
  · exact (c4_dgll_branch_selection 1 0 0).2.1 (by norm_num)
  · exact ((c4_dgll_branch_selection 0 0 0).2.2 (by norm_num) (by norm_num)).1
  · exact ((c4_dgll_branch_selection 0 0 0).2.2 (by norm_num) (by norm_num)).2

/-- C5: every output element of the discretized log-likelihood is at least
`log 1e-12` (the clamp floor, so never `-∞`/NaN), and an interior element
whose bin mass `cdf_plus - cdf_min` is at or below the floor (in particular
zero or below) evaluates to exactly `log 1e-12`. -/
theorem c5_dgll_clamp_floor :
    ∀ x means log_scales : ℝ,
      Real.log 1e-12 ≤ dgll_elem x means log_scales
      ∧ (-0.999 ≤ x → x ≤ 0.999 →
          dgll_cdf_plus x means log_scales - dgll_cdf_min x means log_scales ≤ 1e-12 →
          dgll_elem x means log_scales = Real.log 1e-12) := by
  intro x means log_scales
  constructor
  · exact (dgll_elem_mem x means log_scales).1
  · intro h1 h2 h3
    unfold dgll_elem
    rw [if_neg (by linarith), if_neg (by linarith), max_eq_right h3]

/-- C5 witness: at `x = 0`, `means = 61`, `log_scales = 0` the interior bin
mass is below the floor and the output is exactly `log 1e-12`. -/
theorem c5_dgll_clamp_floor_witness : dgll_elem 0 61 0 = Real.log 1e-12 := by
  have hdelta : dgll_cdf_plus 0 61 0 - dgll_cdf_min 0 61 0 ≤ 1e-12 := by
    have hmin : 0 ≤ dgll_cdf_min 0 61 0 :=
      (approx_cdf_mem_Icc (Real.exp (-(0 : ℝ)) * (((0 : ℝ) - 61) - 1.0 / 255.0))).1
    have := dgll_cdf_plus_witness_small
    linarith
  exact (c5_dgll_clamp_floor 0 61 0).2 (by norm_num) (by norm_num) hdelta

/-- C10: every element of a successfully returned discretized
log-likelihood tensor lies in the closed interval `[log 1e-12, 0]`. -/
theorem c10_dgll_output_interval :
    ∀ (x means log_scales t : TensorR),
      discretized_gaussian_log_likelihood x means log_scales = .ok t →
      ∀ v ∈ t.data, Real.log 1e-12 ≤ v ∧ v ≤ 0 := by
  intro x means log_scales t h v hv
  unfold discretized_gaussian_log_likelihood at h
  split at h
  · cases h
    obtain ⟨a, b, c, rfl⟩ := mem_zipWith3 x.data means.data log_scales.data v hv
    exact dgll_elem_mem a b c
  · cases h

/-- C10 witness: the single element of the output at
`x = means = log_scales = [0.0]` lies in `[log 1e-12, 0]`. -/
theorem c10_dgll_output_interval_witness :
    Real.log 1e-12 ≤ dgll_elem 0 0 0 ∧ dgll_elem 0 0 0 ≤ 0 := by
  have h : discretized_gaussian_log_likelihood ⟨[1], [0]⟩ ⟨[1], [0]⟩ ⟨[1], [0]⟩
      = .ok ⟨[1], [dgll_elem 0 0 0]⟩ := by
    unfold discretized_gaussian_log_likelihood
    rw [if_pos ⟨rfl, rfl⟩]
    rfl
  exact c10_dgll_output_interval ⟨[1], [0]⟩ ⟨[1], [0]⟩ ⟨[1], [0]⟩
    ⟨[1], [dgll_elem 0 0 0]⟩ h (dgll_elem 0 0 0) (by simp)

/-! ## ECFD (losses.py lines 79-162)

Sample batches are `Fin B → Fin D → ℝ` (already 2-D, so the `view` calls
are identities), and the raw random draws (`th.randn` / `torch.rand`
outputs) are explicit `[num_freqs, dim]` parameters, so every statement
holds for any realization of the draws.  A bandwidth collection in
fixed-bandwidth mode is a list of scalars each paired with the fresh draw
made for it in that loop iteration. -/

/-- Truncation toward zero performed by `Tensor.to(dtype=th.long)`
(losses.py line 109): floor for non-negative values, ceiling otherwise. -/
noncomputable def truncLong (v : ℝ) : ℤ :=
  if 0 ≤ v then ⌊v⌋ else ⌈v⌉

/-- The frequency matrix of `_gaussian_ecfd` (losses.py line 109):
`t = randn(num_freqs, dim).to(dtype=th.long) * sigma` — the standard-normal
draws `g` are cast to an integer dtype (truncation toward zero) and only
then scaled by `sigma` (`sigma` broadcast to `[num_freqs, dim]`). -/
noncomputable def gaussianFreqMatrix {F D : ℕ} (σ g : Fin F → Fin D → ℝ) :
    Fin F → Fin D → ℝ :=
  fun i j => (truncLong (g i j) : ℝ) * σ i j

/-- Per-sigma statistic `_gaussian_ecfd` (losses.py lines 105-119):
projections `tX = t @ Xᵀ`, `tY = t @ Yᵀ`, batch-averaged weighted cosines
and sines (`wX = wY = 1.0`), mean over frequencies of
`(cos_tX - cos_tY)^2 + (sin_tX - sin_tY)^2`. -/
noncomputable def gaussianEcfdSingle {B D F : ℕ} (X Y : Fin B → Fin D → ℝ)
    (σ g : Fin F → Fin D → ℝ) : ℝ :=
  let wX : ℝ := 1.0
  let wY : ℝ := 1.0
  let t := gaussianFreqMatrix σ g
  let tX := fun (i : Fin F) (b : Fin B) => ∑ j, t i j * X b j
  let cos_tX := fun i => (∑ b, Real.cos (tX i b) * wX) / (B : ℝ)
  let sin_tX := fun i => (∑ b, Real.sin (tX i b) * wX) / (B : ℝ)
  let tY := fun (i : Fin F) (b : Fin B) => ∑ j, t i j * Y b j
  let cos_tY := fun i => (∑ b, Real.cos (tY i b) * wY) / (B : ℝ)
  let sin_tY := fun i => (∑ b, Real.sin (tY i b) * wY) / (B : ℝ)
  let loss := fun i => (cos_tX i - cos_tY i) ^ 2 + (sin_tX i - sin_tY i) ^ 2
  (∑ i, loss i) / (F : ℝ)

/-- Fixed-bandwidth `gaussian_ecfd` (losses.py lines 95-99):
`total_loss = 0.0`, then for each bandwidth (with its fresh draw, in order)
`total_loss += _gaussian_ecfd(X, Y, sigma, num_freqs)`. -/
noncomputable def gaussian_ecfd_fixed {B D F : ℕ} (X Y : Fin B → Fin D → ℝ)
    (sigmas : List (ℝ × (Fin F → Fin D → ℝ))) : ℝ :=
  sigmas.foldl (fun total p => total + gaussianEcfdSingle X Y (fun _ _ => p.1) p.2) 0.0

/-- Optimized-bandwidth `gaussian_ecfd` (losses.py lines 100-103): the
statistic once, with the `[1, dim]` tensor `sigmas` broadcast as the
frequency scale, divided by `th.norm(sigmas, p=2)`, added to the 0.0
accumulator. -/
noncomputable def gaussian_ecfd_opt {B D F : ℕ} (X Y : Fin B → Fin D → ℝ)
    (sigmas : Fin D → ℝ) (g : Fin F → Fin D → ℝ) : ℝ :=
  0.0 + gaussianEcfdSingle X Y (fun _ j => sigmas j) g / Real.sqrt (∑ j, sigmas j ^ 2)

/-- The frequency matrix of `_uniform_ecfd` (losses.py line 152):
`t = (2 * rand(num_freqs, dim) - 1.0) * sigma` with `rand` draws `u` in
`[0, 1]`.  The source writes `torch.rand`, but the module only binds
`import torch as th` (line 8), so the name `torch` is unresolved at run
time; this definition gives the torch semantics the line denotes. -/
def uniformFreqMatrix {F D : ℕ} (σ u : Fin F → Fin D → ℝ) :
    Fin F → Fin D → ℝ :=
  fun i j => (2 * u i j - 1.0) * σ i j

/-- Per-sigma statistic `_uniform_ecfd` (losses.py lines 149-162), same
caveat on the unresolved `torch` name as `uniformFreqMatrix`: projections,
batch-averaged cosines and sines, mean over frequencies of
`(cos_tX - cos_tY)^2 + (sin_tX - sin_tY)^2`. -/
noncomputable def uniformEcfdSingle {B D F : ℕ} (X Y : Fin B → Fin D → ℝ)
    (σ u : Fin F → Fin D → ℝ) : ℝ :=
  let t := uniformFreqMatrix σ u
  let tX := fun (i : Fin F) (b : Fin B) => ∑ j, t i j * X b j
  let cos_tX := fun i => (∑ b, Real.cos (tX i b)) / (B : ℝ)
  let sin_tX := fun i => (∑ b, Real.sin (tX i b)) / (B : ℝ)
  let tY := fun (i : Fin F) (b : Fin B) => ∑ j, t i j * Y b j
  let cos_tY := fun i => (∑ b, Real.cos (tY i b)) / (B : ℝ)
  let sin_tY := fun i => (∑ b, Real.sin (tY i b)) / (B : ℝ)
  let loss := fun i => (cos_tX i - cos_tY i) ^ 2 + (sin_tX i - sin_tY i) ^ 2
  (∑ i, loss i) / (F : ℝ)

/-- Fixed-bandwidth `uniform_ecfd` (losses.py lines 138-142), with the
intended per-sigma statistic. -/
noncomputable def uniform_ecfd_fixed {B D F : ℕ} (X Y : Fin B → Fin D → ℝ)
    (sigmas : List (ℝ × (Fin F → Fin D → ℝ))) : ℝ :=
  sigmas.foldl (fun total p => total + uniformEcfdSingle X Y (fun _ _ => p.1) p.2) 0.0

/-- Optimized-bandwidth `uniform_ecfd` (losses.py lines 143-145):
statistic divided by the L2 norm of `sigmas` (the line writes
`torch.norm`; same unresolved-name caveat). -/
noncomputable def uniform_ecfd_opt {B D F : ℕ} (X Y : Fin B → Fin D → ℝ)
    (sigmas : Fin D → ℝ) (u : Fin F → Fin D → ℝ) : ℝ :=
  0.0 + uniformEcfdSingle X Y (fun _ j => sigmas j) u / Real.sqrt (∑ j, sigmas j ^ 2)

/-- Accumulating a list with `foldl (+ f ·)` from `a` gives `a` plus the
sum of the mapped list (the Python `total_loss` accumulation pattern). -/
lemma foldl_add_eq_sum {α : Type} (f : α → ℝ) :
    ∀ (l : List α) (a : ℝ), l.foldl (fun total p => total + f p) a = a + (l.map f).sum := by
  intro l
  induction l with
  | nil => intro a; simp
  | cons p l ih =>
    intro a
    simp only [List.foldl_cons, List.map_cons, List.sum_cons, ih]
    ring

/-- The Gaussian-weighted per-sigma statistic is non-negative. -/
lemma gaussianEcfdSingle_nonneg {B D F : ℕ} (X Y : Fin B → Fin D → ℝ)
    (σ g : Fin F → Fin D → ℝ) : 0 ≤ gaussianEcfdSingle X Y σ g := by
  unfold gaussianEcfdSingle
  apply div_nonneg _ (Nat.cast_nonneg F)
  apply Finset.sum_nonneg
  intro i _
  positivity

/-- The Uniform-weighted per-sigma statistic is non-negative. -/
lemma uniformEcfdSingle_nonneg {B D F : ℕ} (X Y : Fin B → Fin D → ℝ)
    (σ u : Fin F → Fin D → ℝ) : 0 ≤ uniformEcfdSingle X Y σ u := by
  unfold uniformEcfdSingle
  apply div_nonneg _ (Nat.cast_nonneg F)
  apply Finset.sum_nonneg
  intro i _
  positivity

/-! ## Theorems for the claims on the ECFD estimators -/

/-- C1: the Gaussian-weighted frequency matrix is NOT the raw
standard-normal draws scaled by sigma — the draws are cast to an integer
dtype first, so the sub-unit draw `0.5` with `sigma = 1` yields the
frequency `0` instead of `0.5`. -/
theorem c1_gaussian_freq_integer_truncation :
    gaussianFreqMatrix (F := 1) (D := 1) (fun _ _ => (1 : ℝ)) (fun _ _ => (1 / 2 : ℝ)) 0 0 = 0
    ∧ (1 / 2 : ℝ) * 1 ≠ 0 := by
  constructor
  · unfold gaussianFreqMatrix truncLong
    rw [if_pos (by norm_num)]
    have h : ⌊(1 / 2 : ℝ)⌋ = 0 := by
      rw [Int.floor_eq_zero_iff]
      constructor <;> norm_num
    rw [h]
    norm_num
  · norm_num

/-- C2: with uniform raw draws in `[0, 1]` and `sigma > 0`, every entry of
the Uniform-weighted frequency matrix lies in `[-sigma, sigma]`, and the
per-sigma statistic equals the mean over frequencies of
`(cos_tX - cos_tY)^2 + (sin_tX - sin_tY)^2` with batch-averaged cosines
and sines of the projections. -/
theorem c2_uniform_ecfd_statistic :
    ∀ (B D F : ℕ) (X Y : Fin B → Fin D → ℝ) (σ : ℝ) (u : Fin F → Fin D → ℝ),
      0 < σ →
      (∀ i j, 0 ≤ u i j ∧ u i j ≤ 1) →
      (∀ i j, -σ ≤ uniformFreqMatrix (fun _ _ => σ) u i j
            ∧ uniformFreqMatrix (fun _ _ => σ) u i j ≤ σ)
      ∧ uniformEcfdSingle X Y (fun _ _ => σ) u =
          (∑ i, (((∑ b, Real.cos (∑ j, uniformFreqMatrix (fun _ _ => σ) u i j * X b j)) / (B : ℝ)
              - (∑ b, Real.cos (∑ j, uniformFreqMatrix (fun _ _ => σ) u i j * Y b j)) / (B : ℝ)) ^ 2
            + ((∑ b, Real.sin (∑ j, uniformFreqMatrix (fun _ _ => σ) u i j * X b j)) / (B : ℝ)
              - (∑ b, Real.sin (∑ j, uniformFreqMatrix (fun _ _ => σ) u i j * Y b j)) / (B : ℝ)) ^ 2))
            / (F : ℝ) := by
  intro B D F X Y σ u hσ hu
  constructor
  · intro i j
    have h1 := (hu i j).1
    have h2 := (hu i j).2
    unfold uniformFreqMatrix
    constructor <;> nlinarith
  · rfl

/-- C2 witness: at `sigma = 1` and the constant draw `1/2`, the frequency
matrix entry lies in `[-1, 1]` (it is `0`). -/
theorem c2_uniform_ecfd_statistic_witness :
    -1 ≤ uniformFreqMatrix (F := 1) (D := 1) (fun _ _ => (1 : ℝ))
        (fun _ _ => (1 / 2 : ℝ)) 0 0
    ∧ uniformFreqMatrix (F := 1) (D := 1) (fun _ _ => (1 : ℝ))
        (fun _ _ => (1 / 2 : ℝ)) 0 0 ≤ 1 :=
  (c2_uniform_ecfd_statistic 1 1 1 (fun _ _ => 0) (fun _ _ => 0) 1
    (fun _ _ => 1 / 2) (by norm_num) (fun _ _ => by norm_num)).1 0 0

/-- C6: both weightings, fixed mode: the returned value is the ordered sum
of the per-sigma losses (no averaging); optimized mode: the single
statistic divided by the L2 norm of sigma. -/
theorem c6_ecfd_mode_structure :
    ∀ (B D F : ℕ) (X Y : Fin B → Fin D → ℝ)
      (gpairs upairs : List (ℝ × (Fin F → Fin D → ℝ)))
      (σv : Fin D → ℝ) (g u : Fin F → Fin D → ℝ),
      gaussian_ecfd_fixed X Y gpairs
        = (gpairs.map fun p => gaussianEcfdSingle X Y (fun _ _ => p.1) p.2).sum
      ∧ gaussian_ecfd_opt X Y σv g
        = gaussianEcfdSingle X Y (fun _ j => σv j) g / Real.sqrt (∑ j, σv j ^ 2)
      ∧ uniform_ecfd_fixed X Y upairs
        = (upairs.map fun p => uniformEcfdSingle X Y (fun _ _ => p.1) p.2).sum
      ∧ uniform_ecfd_opt X Y σv u
        = uniformEcfdSingle X Y (fun _ j => σv j) u / Real.sqrt (∑ j, σv j ^ 2) := by
  intro B D F X Y gpairs upairs σv g u
  refine ⟨?_, ?_, ?_, ?_⟩
  · rw [gaussian_ecfd_fixed, foldl_add_eq_sum]; norm_num
  · rw [gaussian_ecfd_opt]; norm_num
  · rw [uniform_ecfd_fixed, foldl_add_eq_sum]; norm_num
  · rw [uniform_ecfd_opt]; norm_num

/-- C7: for any realization of the draws, both ECFD variants return a
non-negative scalar in fixed mode, and in optimized mode whenever the
bandwidth tensor has positive L2 norm. -/
theorem c7_ecfd_nonneg :
    ∀ (B D F : ℕ) (X Y : Fin B → Fin D → ℝ)
      (gpairs upairs : List (ℝ × (Fin F → Fin D → ℝ)))
      (σv : Fin D → ℝ) (g u : Fin F → Fin D → ℝ),
      0 ≤ gaussian_ecfd_fixed X Y gpairs
      ∧ (0 < Real.sqrt (∑ j, σv j ^ 2) → 0 ≤ gaussian_ecfd_opt X Y σv g)
      ∧ 0 ≤ uniform_ecfd_fixed X Y upairs
      ∧ (0 < Real.sqrt (∑ j, σv j ^ 2) → 0 ≤ uniform_ecfd_opt X Y σv u) := by
  intro B D F X Y gpairs upairs σv g u
  refine ⟨?_, ?_, ?_, ?_⟩
  · rw [gaussian_ecfd_fixed, foldl_add_eq_sum]
    have h : ∀ x ∈ (gpairs.map fun p => gaussianEcfdSingle X Y (fun _ _ => p.1) p.2), 0 ≤ x := by
      intro x hx
      obtain ⟨p, _, rfl⟩ := List.mem_map.1 hx
      exact gaussianEcfdSingle_nonneg X Y _ _
    have := List.sum_nonneg h
    linarith
  · intro hn
    rw [gaussian_ecfd_opt]
    have := gaussianEcfdSingle_nonneg X Y (fun _ j => σv j) g
    positivity
  · rw [uniform_ecfd_fixed, foldl_add_eq_sum]
    have h : ∀ x ∈ (upairs.map fun p => uniformEcfdSingle X Y (fun _ _ => p.1) p.2), 0 ≤ x := by
      intro x hx
      obtain ⟨p, _, rfl⟩ := List.mem_map.1 hx
      exact uniformEcfdSingle_nonneg X Y _ _
    have := List.sum_nonneg h
    linarith
  · intro hn
    rw [uniform_ecfd_opt]
    have := uniformEcfdSingle_nonneg X Y (fun _ j => σv j) u
    positivity

/-- C7 witness: a concrete one-bandwidth, one-frequency, one-sample
instance with `sigma = 1` (positive L2 norm) gives non-negative values in
all four modes. -/
theorem c7_ecfd_nonneg_witness :
    0 ≤ gaussian_ecfd_fixed (B := 1) (D := 1) (F := 1) (fun _ _ => 0) (fun _ _ => 0)
        [(1, fun _ _ => 0)]
    ∧ 0 ≤ gaussian_ecfd_opt (B := 1) (D := 1) (F := 1) (fun _ _ => 0) (fun _ _ => 0)
        (fun _ => 1) (fun _ _ => 0)
    ∧ 0 ≤ uniform_ecfd_fixed (B := 1) (D := 1) (F := 1) (fun _ _ => 0) (fun _ _ => 0)
        [(1, fun _ _ => 0)]
    ∧ 0 ≤ uniform_ecfd_opt (B := 1) (D := 1) (F := 1) (fun _ _ => 0) (fun _ _ => 0)
        (fun _ => 1) (fun _ _ => 0) := by
  have hn : (0 : ℝ) < Real.sqrt (∑ _j : Fin 1, (fun _ : Fin 1 => (1 : ℝ)) _j ^ 2) := by
    simp [Real.sqrt_one]
  have h := c7_ecfd_nonneg 1 1 1 (fun _ _ => 0) (fun _ _ => 0)
    [(1, fun _ _ => 0)] [(1, fun _ _ => 0)] (fun _ => 1) (fun _ _ => 0) (fun _ _ => 0)
  exact ⟨h.1, h.2.1 hn, h.2.2.1, h.2.2.2 hn⟩

end CmLosses
